import Mathlib

/-!
Shallow embedding of the TrailGuard backend rescue core
(src/lib/rescueFilters.ts, src/routes/rescue.ts, src/routes/notification routes,
src/lib/notifications.ts) and proofs about the claims of its specification.

Modelling conventions:
- JS numbers used as coordinates are embedded as rationals; epoch timestamps as
  integers.  JS date parsing (the "new Date" constructor together with the
  "Number.isNaN(d.getTime())" validity test) is an external runtime facility and
  is passed in as an explicit parameter of type String -> Option Int.
- Nullable / optional columns and fields become Option; JS truthiness tests on
  strings and numeric ids are embedded explicitly (strTruthy, idTruthy).
- The Prisma store is embedded as lists of rows; findUnique / findFirst become
  List.find?, updateMany becomes List.map guarded by the where-condition, and a
  multi-statement transaction becomes one pure state-to-state function.
- A JS Set of numeric ids becomes an insertion-ordered duplicate-free
  List Nat (setInsert), matching Set insertion order and Array.from.
-/

namespace TrailGuard

/-- JS truthiness of an optional string (undefined and the empty string are falsy). -/
def strTruthy : Option String → Bool
  | none => false
  | some s => !s.isEmpty

/-- JS truthiness of an optional numeric id (undefined, null and 0 are falsy). -/
def idTruthy : Option Nat → Bool
  | none => false
  | some n => n != 0

/-- Validated query filters produced by rescueQuerySchema (src/lib/rescueFilters.ts).
Enumerated fields stay strings, the two date bounds stay raw query strings,
coordinates are rationals. -/
structure RescueFilters where
  vehicleType : Option String := none
  drivetrain : Option String := none
  terrainType : Option String := none
  problemType : Option String := none
  assistanceStatus : Option String := none
  assistanceChannel : Option String := none
  status : Option String := none
  «from» : Option String := none
  «to» : Option String := none
  minLat : Option Rat := none
  maxLat : Option Rat := none
  minLng : Option Rat := none
  maxLng : Option Rat := none
  limit : Option Rat := none
  cursor : Option Rat := none
  deriving DecidableEq

/-- The RescueStreamRecord type of src/lib/rescueFilters.ts (the fields the two
filter evaluators read). -/
structure RescueStreamRecord where
  id : Nat := 0
  latitude : Rat := 0
  longitude : Rat := 0
  message : Option String := none
  status : String := "pending"
  vehicleType : Option String := none
  drivetrain : Option String := none
  terrainType : Option String := none
  problemType : Option String := none
  assistanceStatus : Option String := none
  assistanceChannel : Option String := none
  assistanceProvider : Option String := none
  createdAt : Int := 0
  updatedAt : Int := 0
  deriving DecidableEq

/-- A gte/lte pair inside a Prisma where-clause. -/
structure RangeFilter (α : Type) where
  gte : Option α := none
  lte : Option α := none
  deriving DecidableEq

/-- The Prisma.RescueWhereInput object assembled by buildRescueWhere: the
constraints it can emit for the columns the filters touch. -/
structure RescueWhere where
  vehicleType : Option String := none
  drivetrain : Option String := none
  terrainType : Option String := none
  problemType : Option String := none
  assistanceStatus : Option String := none
  assistanceChannel : Option String := none
  status : Option String := none
  createdAt : Option (RangeFilter Int) := none
  latitude : Option (RangeFilter Rat) := none
  longitude : Option (RangeFilter Rat) := none
  deriving DecidableEq

/-- The JS idiom "filters.from ? new Date(filters.from) : undefined" followed by
the validity test: none = no Date was constructed, some none = an invalid Date,
some (some t) = a Date worth t epoch milliseconds. -/
def parseTruthy (pd : String → Option Int) : Option String → Option (Option Int)
  | none => none
  | some s => if s.isEmpty then none else some (pd s)

/-- The latitude range emitted by the bounding-box block of buildRescueWhere:
present only when all four bounds are supplied, normalised with min/max. -/
def bboxLatFilter (f : RescueFilters) : Option (RangeFilter Rat) :=
  match f.minLat, f.maxLat, f.minLng, f.maxLng with
  | some a, some b, some _, some _ => some { gte := some (min a b), lte := some (max a b) }
  | _, _, _, _ => none

/-- The longitude range emitted by the bounding-box block of buildRescueWhere. -/
def bboxLngFilter (f : RescueFilters) : Option (RangeFilter Rat) :=
  match f.minLat, f.maxLat, f.minLng, f.maxLng with
  | some _, some _, some c, some d => some { gte := some (min c d), lte := some (max c d) }
  | _, _, _, _ => none

/-- buildRescueWhere (src/lib/rescueFilters.ts lines 199-245).  pd embeds JS
date parsing.  Throwing "new Error" becomes Except.error. -/
def buildRescueWhere (pd : String → Option Int) (f : RescueFilters) :
    Except String RescueWhere :=
  let fromDate := parseTruthy pd f.«from»
  let toDate := parseTruthy pd f.«to»
  let base : RescueWhere :=
    { vehicleType := if strTruthy f.vehicleType then f.vehicleType else none
      drivetrain := if strTruthy f.drivetrain then f.drivetrain else none
      terrainType := if strTruthy f.terrainType then f.terrainType else none
      problemType := if strTruthy f.problemType then f.problemType else none
      assistanceStatus := if strTruthy f.assistanceStatus then f.assistanceStatus else none
      assistanceChannel := if strTruthy f.assistanceChannel then f.assistanceChannel else none
      status := if strTruthy f.status then f.status else none
      createdAt := none
      latitude := bboxLatFilter f
      longitude := bboxLngFilter f }
  if strTruthy f.«from» || strTruthy f.«to» then
    if fromDate = some none then Except.error "Fecha from invalida"
    else if toDate = some none then Except.error "Fecha to invalida"
    else Except.ok { base with createdAt := some { gte := fromDate.join, lte := toDate.join } }
  else Except.ok base

/-- Store semantics of one optional equality constraint on a nullable string
column: absent constraint accepts everything, a present constraint accepts
exactly the rows holding that value (a NULL column never equals it). -/
def eqSat (c : Option String) (v : Option String) : Bool :=
  match c with
  | none => true
  | some s => v == some s

/-- Store semantics of the status constraint (a non-null column). -/
def statusSat (c : Option String) (v : String) : Bool :=
  match c with
  | none => true
  | some s => v == s

/-- Store semantics of an optional gte/lte range constraint. -/
def rangeSat {α : Type} [LinearOrder α] (c : Option (RangeFilter α)) (v : α) : Bool :=
  match c with
  | none => true
  | some r =>
    (match r.gte with | none => true | some lo => decide (lo ≤ v)) &&
    (match r.lte with | none => true | some hi => decide (v ≤ hi))

/-- Whether a record satisfies every constraint of a built where-clause: the
stored-query form of the filter evaluator. -/
def whereMatches (w : RescueWhere) (r : RescueStreamRecord) : Bool :=
  eqSat w.vehicleType r.vehicleType &&
  eqSat w.drivetrain r.drivetrain &&
  eqSat w.terrainType r.terrainType &&
  eqSat w.problemType r.problemType &&
  eqSat w.assistanceStatus r.assistanceStatus &&
  eqSat w.assistanceChannel r.assistanceChannel &&
  statusSat w.status r.status &&
  rangeSat w.createdAt r.createdAt &&
  rangeSat w.latitude r.latitude &&
  rangeSat w.longitude r.longitude

/-- The from-bound guard of matchesStreamFilters: reject only when the bound is
truthy, parses to a valid date and the record was created strictly before it. -/
def fromCheck (pd : String → Option Int) (f : RescueFilters) (t : Int) : Bool :=
  match parseTruthy pd f.«from» with
  | some (some d) => !decide (t < d)
  | _ => true

/-- The to-bound guard of matchesStreamFilters. -/
def toCheck (pd : String → Option Int) (f : RescueFilters) (t : Int) : Bool :=
  match parseTruthy pd f.«to» with
  | some (some d) => !decide (d < t)
  | _ => true

/-- The bounding-box guard of matchesStreamFilters: applies only when all four
bounds are supplied, after min/max normalisation. -/
def bboxCheck (f : RescueFilters) (la ln : Rat) : Bool :=
  match f.minLat, f.maxLat, f.minLng, f.maxLng with
  | some a, some b, some c, some d =>
    !(decide (la < min a b) || decide (max a b < la) ||
      decide (ln < min c d) || decide (max c d < ln))
  | _, _, _, _ => true

/-- matchesStreamFilters (src/lib/rescueFilters.ts lines 247-290): the in-memory
form of the filter evaluator, an early-return chain written as a conjunction of
negated rejection guards. -/
def matchesStreamFilters (pd : String → Option Int) (r : RescueStreamRecord)
    (f : RescueFilters) : Bool :=
  !(strTruthy f.vehicleType && r.vehicleType != f.vehicleType) &&
  !(strTruthy f.drivetrain && r.drivetrain != f.drivetrain) &&
  !(strTruthy f.terrainType && r.terrainType != f.terrainType) &&
  !(strTruthy f.problemType && r.problemType != f.problemType) &&
  !(strTruthy f.assistanceStatus && r.assistanceStatus != f.assistanceStatus) &&
  !(strTruthy f.assistanceChannel && r.assistanceChannel != f.assistanceChannel) &&
  !(strTruthy f.status && some r.status != f.status) &&
  fromCheck pd f r.createdAt &&
  toCheck pd f r.createdAt &&
  bboxCheck f r.latitude r.longitude


/-! Helper lemmas for the filter-evaluator equivalence. -/

lemma decide_le_eq_not_decide_lt {α : Type} [LinearOrder α] (a b : α) :
    decide (a ≤ b) = !decide (b < a) := by
  rw [← decide_not]
  simp [not_lt]

lemma eqSat_if (c v : Option String) :
    eqSat (if strTruthy c then c else none) v = !(strTruthy c && v != c) := by
  cases c with
  | none => simp [eqSat, strTruthy]
  | some s =>
    by_cases hs : s.isEmpty
    · simp [eqSat, strTruthy, hs]
    · simp [eqSat, strTruthy, hs, bne]

lemma statusSat_if (c : Option String) (v : String) :
    statusSat (if strTruthy c then c else none) v = !(strTruthy c && some v != c) := by
  cases c with
  | none => simp [statusSat, strTruthy]
  | some s =>
    by_cases hs : s.isEmpty
    · simp [statusSat, strTruthy, hs]
    · simp [statusSat, strTruthy, hs, bne]

lemma rangeSat_none {α : Type} [LinearOrder α] (v : α) :
    rangeSat (α := α) none v = true := rfl

lemma parseTruthy_eq_none (pd : String → Option Int) (o : Option String)
    (h : strTruthy o = false) : parseTruthy pd o = none := by
  cases o with
  | none => rfl
  | some s =>
    cases hse : s.isEmpty with
    | true => simp [parseTruthy, hse]
    | false => simp [strTruthy, hse] at h

lemma bbox_sat (f : RescueFilters) (la ln : Rat) :
    (rangeSat (bboxLatFilter f) la && rangeSat (bboxLngFilter f) ln) =
    bboxCheck f la ln := by
  rcases ha : f.minLat with _ | a <;> rcases hb : f.maxLat with _ | b <;>
    rcases hc : f.minLng with _ | c <;> rcases hd : f.maxLng with _ | d <;>
    simp only [bboxLatFilter, bboxLngFilter, bboxCheck, ha, hb, hc, hd, rangeSat,
      Bool.and_true, Bool.true_and]
  case some.some.some.some =>
    simp only [decide_le_eq_not_decide_lt, Bool.not_or, Bool.and_assoc]

lemma date_sat (pd : String → Option Int) (f : RescueFilters) (t : Int) :
    rangeSat (some { gte := (parseTruthy pd f.«from»).join,
                     lte := (parseTruthy pd f.«to»).join }) t =
    (fromCheck pd f t && toCheck pd f t) := by
  unfold fromCheck toCheck
  rcases h₁ : parseTruthy pd f.«from» with _ | _ | d₁ <;>
    rcases h₂ : parseTruthy pd f.«to» with _ | _ | d₂ <;>
    simp [rangeSat, Option.join, decide_le_eq_not_decide_lt]

/-- C1: for every record and every filter combination on which buildRescueWhere
succeeds, the stored-query form and the in-memory form of the filter evaluator
agree: the record satisfies the produced where-clause exactly when
matchesStreamFilters accepts it. -/
theorem filter_evaluator_equivalence (pd : String → Option Int) (f : RescueFilters)
    (r : RescueStreamRecord) (w : RescueWhere)
    (h : buildRescueWhere pd f = Except.ok w) :
    whereMatches w r = matchesStreamFilters pd r f := by
  simp only [buildRescueWhere] at h
  by_cases hg : (strTruthy f.«from» || strTruthy f.«to») = true
  · rw [if_pos hg] at h
    by_cases hf : parseTruthy pd f.«from» = some none
    · rw [if_pos hf] at h
      exact absurd h (by simp)
    · rw [if_neg hf] at h
      by_cases ht : parseTruthy pd f.«to» = some none
      · rw [if_pos ht] at h
        exact absurd h (by simp)
      · rw [if_neg ht] at h
        simp only [Except.ok.injEq] at h
        subst h
        simp only [whereMatches, matchesStreamFilters, eqSat_if, statusSat_if]
        rw [date_sat pd f r.createdAt, ← bbox_sat]
        ac_rfl
  · rw [if_neg hg] at h
    simp only [Except.ok.injEq] at h
    subst h
    simp only [Bool.or_eq_true, not_or, Bool.not_eq_true] at hg
    obtain ⟨hf0, ht0⟩ := hg
    simp only [whereMatches, matchesStreamFilters, eqSat_if, statusSat_if, fromCheck,
      toCheck, parseTruthy_eq_none pd _ hf0, parseTruthy_eq_none pd _ ht0, rangeSat_none]
    rw [← bbox_sat]
    simp only [Bool.and_true, Bool.true_and]
    ac_rfl


/-- A concrete embedded date parser for witnesses (every string parses to epoch 0). -/
def sampleParse : String → Option Int := fun _ => some 0

/-- The filters of the vitest case: vehicleType suv inside bbox [-39,-37] x [-58,-57]. -/
def sampleFilters : RescueFilters :=
  { vehicleType := some "suv", minLat := some (-39), maxLat := some (-37),
    minLng := some (-58), maxLng := some (-57) }

/-- The rescue record of the vitest case at (-38.0, -57.5). -/
def sampleRecord : RescueStreamRecord :=
  { id := 1, latitude := -38, longitude := -115/2, status := "pending",
    vehicleType := some "suv", drivetrain := some "four_wd",
    terrainType := some "sand", problemType := some "stuck",
    assistanceStatus := some "none", assistanceChannel := some "community" }

/-- The where-clause buildRescueWhere produces for sampleFilters. -/
def sampleWhere : RescueWhere :=
  { vehicleType := some "suv",
    latitude := some { gte := some (-39), lte := some (-37) },
    longitude := some { gte := some (-58), lte := some (-57) } }

/-- Witness for C1 at the vitest inputs. -/
theorem filter_evaluator_equivalence_witness :
    buildRescueWhere sampleParse sampleFilters = Except.ok sampleWhere ∧
    whereMatches sampleWhere sampleRecord =
      matchesStreamFilters sampleParse sampleRecord sampleFilters :=
  ⟨by rfl,
   filter_evaluator_equivalence sampleParse sampleFilters sampleRecord sampleWhere (by rfl)⟩

/-- The filter combination with only the two latitude bounds interchanged. -/
def swapLatBounds (f : RescueFilters) : RescueFilters :=
  { f with minLat := f.maxLat, maxLat := f.minLat }

/-- The filter combination with only the two longitude bounds interchanged. -/
def swapLngBounds (f : RescueFilters) : RescueFilters :=
  { f with minLng := f.maxLng, maxLng := f.minLng }

/-- The filter combination with the two latitude bounds and the two longitude
bounds interchanged. -/
def swapBounds (f : RescueFilters) : RescueFilters :=
  { f with minLat := f.maxLat, maxLat := f.minLat, minLng := f.maxLng, maxLng := f.minLng }

/-- C8: bounding-box filtering is order-invariant in both evaluator forms under
every swap combination: interchanging the two latitude bounds, the two
longitude bounds, or both at once leaves the built where-clause and every
matchesStreamFilters verdict unchanged. -/
theorem bbox_order_invariance (pd : String → Option Int) (f : RescueFilters)
    (r : RescueStreamRecord) :
    (buildRescueWhere pd (swapLatBounds f) = buildRescueWhere pd f ∧
     matchesStreamFilters pd r (swapLatBounds f) = matchesStreamFilters pd r f) ∧
    (buildRescueWhere pd (swapLngBounds f) = buildRescueWhere pd f ∧
     matchesStreamFilters pd r (swapLngBounds f) = matchesStreamFilters pd r f) ∧
    (buildRescueWhere pd (swapBounds f) = buildRescueWhere pd f ∧
     matchesStreamFilters pd r (swapBounds f) = matchesStreamFilters pd r f) := by
  obtain ⟨v, dr, tt, pt, ast, ach, st, fr, tso, mla, mxa, mln, mxl, li, cu⟩ := f
  rcases mla with _ | a <;> rcases mxa with _ | b <;>
    rcases mln with _ | c <;> rcases mxl with _ | d <;>
    refine ⟨⟨?_, ?_⟩, ⟨?_, ?_⟩, ⟨?_, ?_⟩⟩ <;>
    simp [buildRescueWhere, matchesStreamFilters, swapLatBounds, swapLngBounds, swapBounds,
      bboxLatFilter, bboxLngFilter, bboxCheck, fromCheck, toCheck, min_comm, max_comm]


/-! Store model: rows of the Prisma tables the rescue routes touch, and the
route handlers as pure functions over them. -/

/-- A rescue row (the columns the modelled routes read or write). -/
structure Rescue where
  id : Nat
  userId : Nat
  status : String := "pending"
  assignedRescuerId : Option Nat := none
  assignedTeamId : Option Nat := none
  assistanceStatus : String := "none"
  assistanceChannel : String := "none"
  assistanceProvider : Option String := none
  problemType : Option String := none
  deriving DecidableEq

/-- A rescue-candidate row: exactly one of userId / teamId is set on creation. -/
structure RescueCandidate where
  id : Nat
  rescueId : Nat
  userId : Option Nat := none
  teamId : Option Nat := none
  status : String := "pending"
  deriving DecidableEq

/-- A team row (only the owner matters to the rescue routes). -/
structure Team where
  id : Nat
  ownerId : Nat
  deriving DecidableEq

/-- A team-membership row. -/
structure TeamMemberRow where
  teamId : Nat
  userId : Nat
  deriving DecidableEq

/-- A chat-message row on a rescue. -/
structure MessageRow where
  id : Nat
  rescueId : Nat
  authorId : Nat
  content : String
  deriving DecidableEq

/-- A notification created by the fan-out helpers (recipient and event kind;
title / message / data carry no behaviour). -/
structure NotifRow where
  userId : Nat
  kind : String
  deriving DecidableEq

/-- The transactional store as seen by the rescue routes. -/
structure Store where
  rescues : List Rescue := []
  candidates : List RescueCandidate := []
  teams : List Team := []
  teamMembers : List TeamMemberRow := []
  messages : List MessageRow := []
  nextCandidateId : Nat := 1
  nextMessageId : Nat := 1
  deriving DecidableEq

/-- The error responses of the rescue routes (HTTP status plus body text). -/
inductive ApiError where
  | notFound : String → ApiError
  | forbidden : ApiError
  | badRequest : String → ApiError
  deriving DecidableEq

/-- isTeamMember (src/routes/rescue.ts lines 85-97): (exists, isMember). -/
def isTeamMember (st : Store) (teamId userId : Nat) : Bool × Bool :=
  match st.teams.find? (fun t => t.id == teamId) with
  | none => (false, false)
  | some t =>
    if t.ownerId == userId then (true, true)
    else (true, (st.teamMembers.find? (fun m => m.teamId == teamId && m.userId == userId)).isSome)

/-- JS Set.add on a set of ids: a no-op on an already present element,
otherwise appended (Sets iterate in insertion order). -/
def setInsert (x : Nat) (s : List Nat) : List Nat :=
  if x ∈ s then s else s ++ [x]

/-- The recurring recipients-set idiom: add every member of a team
(teamMembers.forEach over the rows of that team). -/
def addTeamMembers (st : Store) (teamId : Nat) (s : List Nat) : List Nat :=
  (st.teamMembers.filter (fun m => m.teamId == teamId)).foldl
    (fun acc m => setInsert m.userId acc) s

/-- The recurring recipients-set idiom: add the team owner when its id is truthy. -/
def addTeamOwner (st : Store) (teamId : Nat) (s : List Nat) : List Nat :=
  match st.teams.find? (fun t => t.id == teamId) with
  | some t => if t.ownerId != 0 then setInsert t.ownerId s else s
  | none => s

/-- The recipients of a winning-team assignment notification (members first,
then the owner), as in POST /:id/assign lines 482-492. -/
def assignRecipients (st : Store) (teamId : Nat) : List Nat :=
  addTeamOwner st teamId (addTeamMembers st teamId [])

/-- The notifications created after the assignment transaction commits
(POST /:id/assign lines 473-504): one to the winning user, or one per
member / owner of the winning team. -/
def assignNotifications (st : Store) (c : RescueCandidate) : List NotifRow :=
  if idTruthy c.userId then
    [{ userId := c.userId.getD 0, kind := "rescue_assigned" }]
  else if idTruthy c.teamId then
    (assignRecipients st (c.teamId.getD 0)).map
      (fun u => { userId := u, kind := "rescue_assigned" })
  else []

/-- POST /:id/assign (src/routes/rescue.ts lines 404-511).  The state is
returned unchanged on every error path; the three writes of the
prisma.$transaction become one atomic state change.  On success the route also
returns the updated rescue, the (pre-transaction) candidate row it accepted and
the notifications it then creates. -/
def assignCandidate (st : Store) (rid caller cid : Nat) :
    Store × Except ApiError (Rescue × RescueCandidate × List NotifRow) :=
  match st.rescues.find? (fun r => r.id == rid) with
  | none => (st, Except.error (ApiError.notFound "Rescate no encontrado"))
  | some rescue =>
    if rescue.userId != caller then (st, Except.error ApiError.forbidden)
    else if rescue.status == "resolved" then
      (st, Except.error (ApiError.badRequest "Rescate ya resuelto"))
    else
      match st.candidates.find? (fun c => c.id == cid) with
      | none => (st, Except.error (ApiError.notFound "Candidato no encontrado"))
      | some candidate =>
        if candidate.rescueId != rid then
          (st, Except.error (ApiError.notFound "Candidato no encontrado"))
        else
          let newCandidates := st.candidates.map (fun c =>
            if c.id == candidate.id then { c with status := "accepted" }
            else if c.rescueId == rid then { c with status := "rejected" }
            else c)
          let updatedRescue := { rescue with
            status := "accepted"
            assignedRescuerId := candidate.userId
            assignedTeamId := candidate.teamId }
          let newRescues := st.rescues.map (fun r => if r.id == rid then updatedRescue else r)
          ({ st with rescues := newRescues, candidates := newCandidates },
           Except.ok (updatedRescue, candidate, assignNotifications st candidate))


/-- The body accepted by rescueUpdateSchema (PATCH /:id): five optional fields,
unknown keys rejected by the strict schema at the boundary. -/
structure RescueUpdate where
  status : Option String := none
  assistanceStatus : Option String := none
  assistanceChannel : Option String := none
  assistanceProvider : Option String := none
  problemType : Option String := none
  deriving DecidableEq

/-- Object.keys(parsed.data).length === 0: no field was supplied. -/
def RescueUpdate.isEmpty (f : RescueUpdate) : Bool :=
  f.status.isNone && f.assistanceStatus.isNone && f.assistanceChannel.isNone &&
  f.assistanceProvider.isNone && f.problemType.isNone

/-- prisma.rescue.update({ data: parsed.data }): each supplied field overwrites
the column, absent fields keep their value. -/
def applyUpdate (r : Rescue) (f : RescueUpdate) : Rescue :=
  { r with
    status := f.status.getD r.status
    assistanceStatus := f.assistanceStatus.getD r.assistanceStatus
    assistanceChannel := f.assistanceChannel.getD r.assistanceChannel
    assistanceProvider := if f.assistanceProvider.isSome then f.assistanceProvider
                          else r.assistanceProvider
    problemType := if f.problemType.isSome then f.problemType else r.problemType }

/-- The recipients of the resolution fan-out (PATCH /:id lines 222-235):
the assigned responder if truthy, then for a truthy assigned team all its
members and its owner. -/
def resolutionRecipients (st : Store) (existing : Rescue) : List Nat :=
  let s0 : List Nat :=
    if idTruthy existing.assignedRescuerId then
      setInsert (existing.assignedRescuerId.getD 0) [] else []
  if idTruthy existing.assignedTeamId then
    addTeamOwner st (existing.assignedTeamId.getD 0)
      (addTeamMembers st (existing.assignedTeamId.getD 0) s0)
  else s0

/-- PATCH /:id (src/routes/rescue.ts lines 180-255): empty-update check, lookup,
owner check, unconditional field update, then the resolution notification batch
exactly when the new status is resolved and the prior status was not. -/
def updateRescue (st : Store) (rid caller : Nat) (f : RescueUpdate) :
    Store × Except ApiError (Rescue × List NotifRow) :=
  if f.isEmpty then (st, Except.error (ApiError.badRequest "Sin campos para actualizar"))
  else
    match st.rescues.find? (fun r => r.id == rid) with
    | none => (st, Except.error (ApiError.notFound "Rescate no encontrado"))
    | some existing =>
      if existing.userId != caller then (st, Except.error ApiError.forbidden)
      else
        let updated := applyUpdate existing f
        let st2 := { st with rescues := st.rescues.map (fun r => if r.id == rid then updated else r) }
        let ns : List NotifRow :=
          if f.status == some "resolved" && existing.status != "resolved" then
            (resolutionRecipients st existing).map (fun u => { userId := u, kind := "rescue_resolved" })
          else []
        (st2, Except.ok (updated, ns))

/-- POST /:id/candidates (src/routes/rescue.ts lines 257-344): availability and
membership checks, duplicate lookup returning the existing row idempotently,
otherwise creation of a fresh pending candidate plus one owner notification. -/
def proposeCandidate (st : Store) (rid caller : Nat) (teamId : Option Nat) :
    Store × Except ApiError (RescueCandidate × List NotifRow) :=
  match st.rescues.find? (fun r => r.id == rid) with
  | none => (st, Except.error (ApiError.notFound "Rescate no encontrado"))
  | some rescue =>
    if rescue.status == "resolved" || idTruthy rescue.assignedRescuerId ||
        idTruthy rescue.assignedTeamId then
      (st, Except.error (ApiError.badRequest "Rescate no disponible"))
    else if idTruthy teamId && !(isTeamMember st (teamId.getD 0) caller).1 then
      (st, Except.error (ApiError.notFound "Equipo no encontrado"))
    else if idTruthy teamId && !(isTeamMember st (teamId.getD 0) caller).2 then
      (st, Except.error ApiError.forbidden)
    else
      match st.candidates.find? (fun c =>
          if idTruthy teamId then c.rescueId == rid && c.teamId == teamId
          else c.rescueId == rid && c.userId == some caller) with
      | some existing => (st, Except.ok (existing, []))
      | none =>
        let cand : RescueCandidate :=
          { id := st.nextCandidateId, rescueId := rid,
            userId := if idTruthy teamId then none else some caller,
            teamId := if idTruthy teamId then teamId else none,
            status := "pending" }
        ({ st with candidates := st.candidates ++ [cand],
                   nextCandidateId := st.nextCandidateId + 1 },
         Except.ok (cand, [{ userId := rescue.userId, kind := "rescue_candidate" }]))

/-- canChatOrShare (src/routes/rescue.ts lines 99-117): the rescue row when it
exists, and whether the caller is its owner, its assigned responder or a member
(or owner) of its assigned team. -/
def canChatOrShare (st : Store) (rid uid : Nat) : Option Rescue × Bool :=
  match st.rescues.find? (fun r => r.id == rid) with
  | none => (none, false)
  | some rescue =>
    if rescue.userId == uid then (some rescue, true)
    else if rescue.assignedRescuerId == some uid then (some rescue, true)
    else if idTruthy rescue.assignedTeamId then
      let m := isTeamMember st (rescue.assignedTeamId.getD 0) uid
      (some rescue, m.1 && m.2)
    else (some rescue, false)

/-- The recipient set of a chat-message notification (POST /:id/messages lines
712-727): owner, assigned responder, assigned-team members and owner, with the
message author deleted at the end. -/
def messageRecipients (st : Store) (rescue : Rescue) (author : Nat) : List Nat :=
  let s0 : List Nat := if rescue.userId != 0 then setInsert rescue.userId [] else []
  let s1 : List Nat :=
    if idTruthy rescue.assignedRescuerId then
      setInsert (rescue.assignedRescuerId.getD 0) s0 else s0
  let s2 : List Nat :=
    if idTruthy rescue.assignedTeamId then
      addTeamOwner st (rescue.assignedTeamId.getD 0)
        (addTeamMembers st (rescue.assignedTeamId.getD 0) s1)
    else s1
  s2.filter (fun y => y != author)

/-- POST /:id/messages (src/routes/rescue.ts lines 677-747): access check,
message creation, then one rescue_message notification per recipient. -/
def postMessage (st : Store) (rid author : Nat) (content : String) :
    Store × Except ApiError (MessageRow × List NotifRow) :=
  match canChatOrShare st rid author with
  | (some rescue, true) =>
    let msg : MessageRow :=
      { id := st.nextMessageId, rescueId := rid, authorId := author, content := content }
    let ns := (messageRecipients st rescue author).map
      (fun u => ({ userId := u, kind := "rescue_message" } : NotifRow))
    ({ st with messages := st.messages ++ [msg], nextMessageId := st.nextMessageId + 1 },
     Except.ok (msg, ns))
  | _ => (st, Except.error ApiError.forbidden)

/-- A persisted notification row as the notification routes see it. -/
structure StoredNotification where
  id : Nat
  userId : Nat
  read : Bool := false
  deriving DecidableEq

/-- POST /:id/read on the notification router (updateMany with
where { id, userId } setting read to true, answering the updated count). -/
def markRead (ns : List StoredNotification) (nid uid : Nat) :
    List StoredNotification × Nat :=
  (ns.map (fun n => if n.id == nid && n.userId == uid then { n with read := true } else n),
   (ns.filter (fun n => n.id == nid && n.userId == uid)).length)


/-! Membership and duplicate-freedom lemmas for the recipients-set idiom. -/

lemma mem_setInsert (x y : Nat) (s : List Nat) :
    y ∈ setInsert x s ↔ y = x ∨ y ∈ s := by
  unfold setInsert
  by_cases hx : x ∈ s
  · simp only [if_pos hx]
    constructor
    · exact Or.inr
    · rintro (rfl | h)
      · exact hx
      · exact h
  · simp [hx, or_comm]

lemma nodup_setInsert (x : Nat) (s : List Nat) (h : s.Nodup) :
    (setInsert x s).Nodup := by
  unfold setInsert
  by_cases hx : x ∈ s <;> simp [hx, List.nodup_append, h]

lemma mem_foldl_setInsert (l : List TeamMemberRow) (s : List Nat) (y : Nat) :
    y ∈ l.foldl (fun acc m => setInsert m.userId acc) s ↔
    y ∈ s ∨ ∃ m ∈ l, m.userId = y := by
  induction l generalizing s with
  | nil => simp
  | cons a l ih =>
    simp only [List.foldl_cons, ih, mem_setInsert, List.mem_cons]
    constructor
    · rintro (h | h)
      · rcases h with h | h
        · exact Or.inr ⟨a, Or.inl rfl, h.symm⟩
        · exact Or.inl h
      · rcases h with ⟨m, hm, hy⟩
        exact Or.inr ⟨m, Or.inr hm, hy⟩
    · rintro (h | ⟨m, hm, hy⟩)
      · exact Or.inl (Or.inr h)
      · rcases hm with rfl | hm
        · exact Or.inl (Or.inl hy.symm)
        · exact Or.inr ⟨m, hm, hy⟩

lemma nodup_foldl_setInsert (l : List TeamMemberRow) (s : List Nat) (h : s.Nodup) :
    (l.foldl (fun acc m => setInsert m.userId acc) s).Nodup := by
  induction l generalizing s with
  | nil => exact h
  | cons a l ih => exact ih _ (nodup_setInsert _ _ h)

lemma mem_addTeamMembers (st : Store) (t : Nat) (s : List Nat) (y : Nat) :
    y ∈ addTeamMembers st t s ↔
    y ∈ s ∨ ∃ m ∈ st.teamMembers, m.teamId = t ∧ m.userId = y := by
  unfold addTeamMembers
  rw [mem_foldl_setInsert]
  simp only [List.mem_filter, beq_iff_eq]
  constructor
  · rintro (h | ⟨m, ⟨hm, ht⟩, rfl⟩)
    · exact Or.inl h
    · exact Or.inr ⟨m, hm, ht, rfl⟩
  · rintro (h | ⟨m, hm, ht, rfl⟩)
    · exact Or.inl h
    · exact Or.inr ⟨m, ⟨hm, ht⟩, rfl⟩

lemma nodup_addTeamMembers (st : Store) (t : Nat) (s : List Nat) (h : s.Nodup) :
    (addTeamMembers st t s).Nodup :=
  nodup_foldl_setInsert _ _ h

lemma mem_addTeamOwner (st : Store) (t : Nat) (s : List Nat) (y : Nat) :
    y ∈ addTeamOwner st t s ↔
    y ∈ s ∨ ∃ tm, st.teams.find? (fun x => x.id == t) = some tm ∧
      tm.ownerId = y ∧ tm.ownerId ≠ 0 := by
  unfold addTeamOwner
  rcases hf : st.teams.find? (fun x => x.id == t) with _ | tm <;> simp only [hf]
  · simp
  · by_cases h0 : tm.ownerId = 0
    · simp [h0]
    · have hb : (tm.ownerId != 0) = true := bne_iff_ne.mpr h0
      simp only [hb, if_true, mem_setInsert, Option.some.injEq, ne_eq]
      constructor
      · rintro (rfl | h)
        · exact Or.inr ⟨tm, rfl, rfl, h0⟩
        · exact Or.inl h
      · rintro (h | ⟨tm2, heq, hy, hne⟩)
        · exact Or.inr h
        · subst heq
          exact Or.inl hy.symm

lemma nodup_addTeamOwner (st : Store) (t : Nat) (s : List Nat) (h : s.Nodup) :
    (addTeamOwner st t s).Nodup := by
  unfold addTeamOwner
  rcases hf : st.teams.find? (fun x => x.id == t) with _ | tm <;> simp only [hf]
  · exact h
  · by_cases h0 : (tm.ownerId != 0) = true <;> simp [h0, nodup_setInsert, h]


/-- C2: every successful assignCandidate call performs, in one atomic state
change, the three writes of the transaction: the chosen candidate becomes
accepted, every other candidate of the rescue becomes rejected, and the rescue
becomes accepted with exactly one assignment field set (the user field for a
user candidate, the team field for a team candidate); every error path leaves
the store untouched. -/
theorem assign_transaction (st : Store) (rid caller cid : Nat)
    (hinv : ∀ c ∈ st.candidates, c.userId.isSome ≠ c.teamId.isSome) :
    (∀ e, (assignCandidate st rid caller cid).2 = Except.error e →
      (assignCandidate st rid caller cid).1 = st) ∧
    (∀ r c ns, (assignCandidate st rid caller cid).2 = Except.ok (r, c, ns) →
      c ∈ st.candidates ∧ c.id = cid ∧ c.rescueId = rid ∧
      r.status = "accepted" ∧
      r.assignedRescuerId = c.userId ∧ r.assignedTeamId = c.teamId ∧
      r.assignedRescuerId.isSome ≠ r.assignedTeamId.isSome ∧
      (∀ x ∈ (assignCandidate st rid caller cid).1.candidates,
        x.rescueId = rid → x.status = if x.id = cid then "accepted" else "rejected") ∧
      (∀ y ∈ (assignCandidate st rid caller cid).1.rescues, y.id = rid → y = r)) := by
  unfold assignCandidate
  rcases hr : st.rescues.find? (fun r => r.id == rid) with _ | rescue <;> simp only [hr]
  · exact ⟨fun e _ => by trivial, fun r c ns h => by simp at h⟩
  · by_cases h1 : (rescue.userId != caller) = true
    · rw [if_pos h1]
      exact ⟨fun e _ => by trivial, fun r c ns h => by simp at h⟩
    · rw [if_neg h1]
      by_cases h2 : (rescue.status == "resolved") = true
      · rw [if_pos h2]
        exact ⟨fun e _ => by trivial, fun r c ns h => by simp at h⟩
      · rw [if_neg h2]
        rcases hc : st.candidates.find? (fun c => c.id == cid) with _ | candidate <;>
          simp only [hc]
        · exact ⟨fun e _ => by trivial, fun r c ns h => by simp at h⟩
        · by_cases h3 : (candidate.rescueId != rid) = true
          · rw [if_pos h3]
            exact ⟨fun e _ => by trivial, fun r c ns h => by simp at h⟩
          · rw [if_neg h3]
            refine ⟨fun e h => by simp at h, ?_⟩
            intro r c ns h
            simp only [Except.ok.injEq, Prod.mk.injEq] at h
            obtain ⟨rfl, rfl, rfl⟩ := h
            have hmem : candidate ∈ st.candidates := List.mem_of_find?_eq_some hc
            have hid : candidate.id = cid := by simpa using List.find?_some hc
            have hcr : candidate.rescueId = rid := by simpa using h3
            refine ⟨hmem, hid, hcr, rfl, rfl, rfl, hinv candidate hmem, ?_, ?_⟩
            · intro x hx hxr
              simp only [List.mem_map] at hx
              obtain ⟨y, hy, rfl⟩ := hx
              by_cases hyc : (y.id == candidate.id) = true
              · rw [if_pos hyc]
                simp only [beq_iff_eq] at hyc
                simp [hyc, hid]
              · rw [if_neg hyc] at hxr ⊢
                by_cases hyr : (y.rescueId == rid) = true
                · rw [if_pos hyr]
                  simp only [beq_iff_eq] at hyc
                  have hne : y.id ≠ cid := by
                    rw [← hid]
                    exact hyc
                  simp [hne]
                · rw [if_neg hyr] at hxr ⊢
                  simp only [beq_iff_eq] at hyr
                  exact absurd hxr hyr
            · intro y hy hyr
              simp only [List.mem_map] at hy
              obtain ⟨z, hz, rfl⟩ := hy
              by_cases hzr : (z.id == rid) = true
              · rw [if_pos hzr]
              · rw [if_neg hzr] at hyr ⊢
                simp only [beq_iff_eq] at hzr
                exact absurd hyr hzr


/-- A store with one pending unassigned rescue owned by user 1 and three pending
candidates: user 2, team 5 (owner 6, member 7) and user 4. -/
def demoStore : Store :=
  { rescues := [{ id := 1, userId := 1 }],
    candidates := [{ id := 2, rescueId := 1, userId := some 2 },
                   { id := 3, rescueId := 1, teamId := some 5 },
                   { id := 4, rescueId := 1, userId := some 4 }],
    teams := [{ id := 5, ownerId := 6 }],
    teamMembers := [{ teamId := 5, userId := 7 }],
    nextCandidateId := 5 }

/-- Witness for C2: assigning the team candidate (id 3) of demoStore. -/
theorem assign_transaction_witness :
    (∀ c ∈ demoStore.candidates, c.userId.isSome ≠ c.teamId.isSome) ∧
    ((∀ e, (assignCandidate demoStore 1 1 3).2 = Except.error e →
        (assignCandidate demoStore 1 1 3).1 = demoStore) ∧
     (∀ r c ns, (assignCandidate demoStore 1 1 3).2 = Except.ok (r, c, ns) →
        c ∈ demoStore.candidates ∧ c.id = 3 ∧ c.rescueId = 1 ∧
        r.status = "accepted" ∧
        r.assignedRescuerId = c.userId ∧ r.assignedTeamId = c.teamId ∧
        r.assignedRescuerId.isSome ≠ r.assignedTeamId.isSome ∧
        (∀ x ∈ (assignCandidate demoStore 1 1 3).1.candidates,
          x.rescueId = 1 → x.status = if x.id = 3 then "accepted" else "rejected") ∧
        (∀ y ∈ (assignCandidate demoStore 1 1 3).1.rescues, y.id = 1 → y = r))) :=
  ⟨by decide, assign_transaction demoStore 1 1 3 (by decide)⟩

/-- The committed state after a first assignment: rescue 1 is accepted and
assigned to user 2; the team candidacy (team 5) was rejected. -/
def assignedRescue : Rescue :=
  { id := 1, userId := 1, status := "accepted", assignedRescuerId := some 2 }

/-- The rejected team candidacy still on rescue 1. -/
def teamCandidate : RescueCandidate :=
  { id := 3, rescueId := 1, teamId := some 5, status := "rejected" }

/-- A store in the post-commit state of a first assignment. -/
def assignedStore : Store :=
  { rescues := [assignedRescue],
    candidates := [{ id := 2, rescueId := 1, userId := some 2, status := "accepted" },
                   teamCandidate],
    teams := [{ id := 5, ownerId := 6 }],
    teamMembers := [{ teamId := 5, userId := 7 }],
    nextCandidateId := 4 }

/-- Counterexample to C3: rescue 1 of assignedStore already carries an
assignment (assignedRescuerId = 2), yet a second assign request succeeds
instead of failing with a Conflict error, and it overwrites the existing
assignment with the team of the chosen candidate. -/
theorem assign_ignores_existing_assignment :
    assignedStore.rescues.find? (fun r => r.id == 1) = some assignedRescue ∧
    assignedRescue.assignedRescuerId = some 2 ∧
    (assignCandidate assignedStore 1 1 3).2 =
      Except.ok ({ id := 1, userId := 1, status := "accepted", assignedTeamId := some 5 },
                 teamCandidate,
                 [{ userId := 7, kind := "rescue_assigned" },
                  { userId := 6, kind := "rescue_assigned" }]) ∧
    (assignCandidate assignedStore 1 1 3).1.rescues =
      [{ id := 1, userId := 1, status := "accepted", assignedTeamId := some 5 }] :=
  ⟨rfl, rfl, rfl, rfl⟩

/-- C3 amended: assignCandidate rejects only a resolved rescue with a Conflict
error; it never checks for an existing assignment, so when the rescue exists,
the caller owns it, its status is not resolved and the candidate belongs to it,
the call succeeds and overwrites any existing assignment fields with the chosen
candidate's ids. -/
theorem assign_succeeds_despite_existing_assignment (st : Store) (rid caller cid : Nat)
    (rescue : Rescue) (candidate : RescueCandidate)
    (hr : st.rescues.find? (fun r => r.id == rid) = some rescue)
    (hown : rescue.userId = caller)
    (hres : rescue.status ≠ "resolved")
    (hc : st.candidates.find? (fun c => c.id == cid) = some candidate)
    (hcr : candidate.rescueId = rid) :
    (assignCandidate st rid caller cid).2 =
      Except.ok ({ rescue with
                    status := "accepted"
                    assignedRescuerId := candidate.userId
                    assignedTeamId := candidate.teamId },
                 candidate, assignNotifications st candidate) := by
  have h1 : ¬ (rescue.userId != caller) = true := by simp [hown]
  have h2 : ¬ (rescue.status == "resolved") = true := by simpa using hres
  have h3 : ¬ (candidate.rescueId != rid) = true := by simp [hcr]
  unfold assignCandidate
  simp only [hr, hc]
  rw [if_neg h1, if_neg h2, if_neg h3]

/-- Witness for the amended C3 at the concrete post-commit store. -/
theorem assign_succeeds_despite_existing_assignment_witness :
    (assignedStore.rescues.find? (fun r => r.id == 1) = some assignedRescue ∧
     assignedRescue.userId = 1 ∧ assignedRescue.status ≠ "resolved" ∧
     assignedStore.candidates.find? (fun c => c.id == 3) = some teamCandidate ∧
     teamCandidate.rescueId = 1) ∧
    (assignCandidate assignedStore 1 1 3).2 =
      Except.ok ({ assignedRescue with
                    status := "accepted"
                    assignedRescuerId := teamCandidate.userId
                    assignedTeamId := teamCandidate.teamId },
                 teamCandidate, assignNotifications assignedStore teamCandidate) :=
  ⟨⟨by decide, by decide, by decide, by decide, by decide⟩,
   assign_succeeds_despite_existing_assignment assignedStore 1 1 3 assignedRescue teamCandidate
     (by decide) (by decide) (by decide) (by decide) (by decide)⟩


/-- A store whose only rescue is already resolved. -/
def resolvedStore : Store :=
  { rescues := [{ id := 1, userId := 1, status := "resolved" }] }

/-- Counterexample to C4: the owner of the resolved rescue 1 sets its status
back to pending through updateRescue, and the stored row changes accordingly —
resolved is not terminal. -/
theorem update_moves_resolved_back_to_pending :
    resolvedStore.rescues.find? (fun r => r.id == 1) =
      some { id := 1, userId := 1, status := "resolved" } ∧
    (updateRescue resolvedStore 1 1 { status := some "pending" }).2 =
      Except.ok ({ id := 1, userId := 1, status := "pending" }, []) ∧
    (updateRescue resolvedStore 1 1 { status := some "pending" }).1.rescues =
      [{ id := 1, userId := 1, status := "pending" }] :=
  ⟨rfl, rfl, rfl⟩

/-- C4 amended: updateRescue enforces no terminal state: whenever the rescue
exists, the caller owns it and a status field is supplied, the update succeeds
and the stored status becomes exactly the supplied value — even a move from
resolved back to pending or accepted.  The only special treatment of resolved
is in the notification gate, not in the transition itself. -/
theorem update_applies_any_status (st : Store) (rid caller : Nat) (f : RescueUpdate)
    (existing : Rescue) (s : String)
    (hr : st.rescues.find? (fun r => r.id == rid) = some existing)
    (hown : existing.userId = caller)
    (hs : f.status = some s) :
    (updateRescue st rid caller f).2.map Prod.fst = Except.ok (applyUpdate existing f) ∧
    (applyUpdate existing f).status = s := by
  have hne : ¬ f.isEmpty = true := by
    simp [RescueUpdate.isEmpty, hs]
  have hown2 : ¬ (existing.userId != caller) = true := by simp [hown]
  constructor
  · unfold updateRescue
    rw [if_neg hne]
    simp only [hr]
    rw [if_neg hown2]
    rfl
  · simp [applyUpdate, hs]

/-- Witness for the amended C4: moving the resolved rescue of resolvedStore
back to pending. -/
theorem update_applies_any_status_witness :
    (resolvedStore.rescues.find? (fun r => r.id == 1) =
       some { id := 1, userId := 1, status := "resolved" } ∧
     ({ id := 1, userId := 1, status := "resolved" } : Rescue).userId = 1 ∧
     ({ status := some "pending" } : RescueUpdate).status = some "pending") ∧
    ((updateRescue resolvedStore 1 1 { status := some "pending" }).2.map Prod.fst =
       Except.ok (applyUpdate { id := 1, userId := 1, status := "resolved" }
                    { status := some "pending" }) ∧
     (applyUpdate { id := 1, userId := 1, status := "resolved" }
        { status := some "pending" }).status = "pending") :=
  ⟨⟨by decide, by decide, by decide⟩,
   update_applies_any_status resolvedStore 1 1 { status := some "pending" }
     { id := 1, userId := 1, status := "resolved" } "pending"
     (by decide) (by decide) (by decide)⟩


lemma mem_notif_map (l : List Nat) (k : String) (u : Nat) :
    ({ userId := u, kind := k } : NotifRow) ∈ l.map (fun v => ({ userId := v, kind := k } : NotifRow)) ↔
    u ∈ l := by
  simp [List.mem_map, NotifRow.mk.injEq]

lemma count_notif_map (l : List Nat) (hl : l.Nodup) (k : String) (u : Nat) :
    (l.map (fun v => ({ userId := v, kind := k } : NotifRow))).count
      { userId := u, kind := k } = if u ∈ l then 1 else 0 := by
  induction l with
  | nil => simp
  | cons a l ih =>
    simp only [List.nodup_cons] at hl
    obtain ⟨ha, hl⟩ := hl
    simp only [List.map_cons, List.count_cons, ih hl, List.mem_cons]
    by_cases hu : u = a
    · subst hu
      simp [ha]
    · simp [hu, NotifRow.mk.injEq, Ne.symm hu]

lemma nodup_resolutionRecipients (st : Store) (ex : Rescue) :
    (resolutionRecipients st ex).Nodup := by
  have h0 : (if idTruthy ex.assignedRescuerId then
      setInsert (ex.assignedRescuerId.getD 0) [] else []).Nodup := by
    split <;> simp [setInsert]
  unfold resolutionRecipients
  by_cases ht : idTruthy ex.assignedTeamId <;> simp only [ht, if_true, if_false]
  · exact nodup_addTeamOwner _ _ _ (nodup_addTeamMembers _ _ _ h0)
  · simpa using h0

lemma mem_resolutionRecipients (st : Store) (ex : Rescue) (u : Nat) :
    u ∈ resolutionRecipients st ex ↔
      (idTruthy ex.assignedRescuerId = true ∧ u = ex.assignedRescuerId.getD 0) ∨
      (idTruthy ex.assignedTeamId = true ∧
        ((∃ m ∈ st.teamMembers, m.teamId = ex.assignedTeamId.getD 0 ∧ m.userId = u) ∨
         (∃ tm, st.teams.find? (fun x => x.id == ex.assignedTeamId.getD 0) = some tm ∧
            tm.ownerId = u ∧ tm.ownerId ≠ 0))) := by
  unfold resolutionRecipients
  by_cases ht : idTruthy ex.assignedTeamId <;>
    by_cases hr : idTruthy ex.assignedRescuerId <;>
    simp [ht, hr, mem_addTeamOwner, mem_addTeamMembers, mem_setInsert] <;>
    itauto


/-- C6: a successful updateRescue emits the resolution batch exactly when the
supplied status is resolved and the prior status was not: re-resolving an
already-resolved rescue (or any non-resolving update) produces no resolution
notifications, and on a genuine transition every recipient — the assigned
responder and, for a team assignment, every member plus the owner — receives
exactly one rescue_resolved notification. -/
theorem resolution_notification_exactly_once (st : Store) (rid caller : Nat)
    (f : RescueUpdate) (existing : Rescue)
    (hr : st.rescues.find? (fun r => r.id == rid) = some existing)
    (hown : existing.userId = caller)
    (hne : f.isEmpty = false) :
    ∀ r2 ns, (updateRescue st rid caller f).2 = Except.ok (r2, ns) →
      (existing.status = "resolved" → ns = []) ∧
      (f.status ≠ some "resolved" → ns = []) ∧
      (f.status = some "resolved" → existing.status ≠ "resolved" →
        (∀ n ∈ ns, n.kind = "rescue_resolved") ∧
        (∀ u, ns.count { userId := u, kind := "rescue_resolved" } =
          if u ∈ resolutionRecipients st existing then 1 else 0) ∧
        (∀ u, u ∈ resolutionRecipients st existing ↔
          (idTruthy existing.assignedRescuerId = true ∧
            u = existing.assignedRescuerId.getD 0) ∨
          (idTruthy existing.assignedTeamId = true ∧
            ((∃ m ∈ st.teamMembers,
                m.teamId = existing.assignedTeamId.getD 0 ∧ m.userId = u) ∨
             (∃ tm, st.teams.find?
                  (fun x => x.id == existing.assignedTeamId.getD 0) = some tm ∧
                tm.ownerId = u ∧ tm.ownerId ≠ 0))))) := by
  intro r2 ns h
  have hne2 : ¬ f.isEmpty = true := by simp [hne]
  have hown2 : ¬ (existing.userId != caller) = true := by simp [hown]
  unfold updateRescue at h
  rw [if_neg hne2] at h
  simp only [hr] at h
  rw [if_neg hown2] at h
  simp only [Except.ok.injEq, Prod.mk.injEq] at h
  obtain ⟨hr2, hns⟩ := h
  refine ⟨?_, ?_, ?_⟩
  · intro hres
    rw [← hns]
    simp [hres]
  · intro hfs
    rw [← hns]
    have : (f.status == some "resolved") = false := by
      simpa using hfs
    simp [this]
  · intro hfs hpre
    have hgate : (f.status == some "resolved" && existing.status != "resolved") = true := by
      simp [hfs, bne_iff_ne, hpre]
    rw [← hns]
    simp only [hgate, if_true]
    refine ⟨?_, ?_, fun u => mem_resolutionRecipients st existing u⟩
    · intro n hn
      simp only [List.mem_map] at hn
      obtain ⟨v, hv, rfl⟩ := hn
      rfl
    · intro u
      rw [count_notif_map _ (nodup_resolutionRecipients st existing)]

/-- Witness for C6: resolving the accepted, user-2-assigned rescue of
assignedStore notifies exactly user 2 once. -/
theorem resolution_notification_exactly_once_witness :
    (assignedStore.rescues.find? (fun r => r.id == 1) = some assignedRescue ∧
     assignedRescue.userId = 1 ∧
     ({ status := some "resolved" } : RescueUpdate).isEmpty = false) ∧
    (∀ r2 ns, (updateRescue assignedStore 1 1 { status := some "resolved" }).2 =
        Except.ok (r2, ns) →
      (assignedRescue.status = "resolved" → ns = []) ∧
      (({ status := some "resolved" } : RescueUpdate).status ≠ some "resolved" → ns = []) ∧
      (({ status := some "resolved" } : RescueUpdate).status = some "resolved" →
        assignedRescue.status ≠ "resolved" →
        (∀ n ∈ ns, n.kind = "rescue_resolved") ∧
        (∀ u, ns.count { userId := u, kind := "rescue_resolved" } =
          if u ∈ resolutionRecipients assignedStore assignedRescue then 1 else 0) ∧
        (∀ u, u ∈ resolutionRecipients assignedStore assignedRescue ↔
          (idTruthy assignedRescue.assignedRescuerId = true ∧
            u = assignedRescue.assignedRescuerId.getD 0) ∨
          (idTruthy assignedRescue.assignedTeamId = true ∧
            ((∃ m ∈ assignedStore.teamMembers,
                m.teamId = assignedRescue.assignedTeamId.getD 0 ∧ m.userId = u) ∨
             (∃ tm, assignedStore.teams.find?
                  (fun x => x.id == assignedRescue.assignedTeamId.getD 0) = some tm ∧
                tm.ownerId = u ∧ tm.ownerId ≠ 0)))))) :=
  ⟨⟨by decide, by decide, by decide⟩,
   resolution_notification_exactly_once assignedStore 1 1 { status := some "resolved" }
     assignedRescue (by decide) (by decide) (by decide)⟩


lemma assign_ok_notifications (st : Store) (rid caller cid : Nat)
    (r : Rescue) (c : RescueCandidate) (ns : List NotifRow)
    (h : (assignCandidate st rid caller cid).2 = Except.ok (r, c, ns)) :
    ns = assignNotifications st c := by
  unfold assignCandidate at h
  rcases hr : st.rescues.find? (fun r => r.id == rid) with _ | rescue <;> simp only [hr] at h
  · simp at h
  · by_cases h1 : (rescue.userId != caller) = true
    · rw [if_pos h1] at h
      simp at h
    · rw [if_neg h1] at h
      by_cases h2 : (rescue.status == "resolved") = true
      · rw [if_pos h2] at h
        simp at h
      · rw [if_neg h2] at h
        rcases hc : st.candidates.find? (fun c => c.id == cid) with _ | candidate <;>
          simp only [hc] at h
        · simp at h
        · by_cases h3 : (candidate.rescueId != rid) = true
          · rw [if_pos h3] at h
            simp at h
          · rw [if_neg h3] at h
            simp only [Except.ok.injEq, Prod.mk.injEq] at h
            obtain ⟨-, rfl, rfl⟩ := h
            rfl

/-- Counterexample to C5: assigning the team candidate (id 3) of demoStore
marks the pending candidacy of user 2 rejected, yet the post-commit
notifications contain only rescue_assigned rows for the winning team — user 2
receives no rescue_candidate_rejected notification from the assignment flow. -/
theorem assign_creates_no_rejection_notifications :
    (assignCandidate demoStore 1 1 3).2 =
      Except.ok ({ id := 1, userId := 1, status := "accepted", assignedTeamId := some 5 },
                 { id := 3, rescueId := 1, teamId := some 5 },
                 [{ userId := 7, kind := "rescue_assigned" },
                  { userId := 6, kind := "rescue_assigned" }]) ∧
    (assignCandidate demoStore 1 1 3).1.candidates.find? (fun c => c.id == 2) =
      some { id := 2, rescueId := 1, userId := some 2, status := "rejected" } ∧
    (assignCandidate demoStore 1 1 3).2.map
      (fun x => x.2.2.count { userId := 2, kind := "rescue_candidate_rejected" }) =
      Except.ok 0 :=
  ⟨rfl, rfl, rfl⟩

/-- C5 amended: after a successful assignment commit the route creates only
rescue_assigned notifications, addressed to the winning responder (exactly one
row) or, for a team candidate, exactly once to every member and the owner of
the winning team; the candidates just marked rejected receive no notification
from the assignment flow. -/
theorem assign_notifies_only_winner (st : Store) (rid caller cid : Nat)
    (r : Rescue) (c : RescueCandidate) (ns : List NotifRow)
    (h : (assignCandidate st rid caller cid).2 = Except.ok (r, c, ns)) :
    (∀ n ∈ ns, n.kind = "rescue_assigned") ∧
    (idTruthy c.userId = true →
      ns = [{ userId := c.userId.getD 0, kind := "rescue_assigned" }]) ∧
    (idTruthy c.userId = false → idTruthy c.teamId = true →
      ∀ u, ns.count { userId := u, kind := "rescue_assigned" } =
        if u ∈ assignRecipients st (c.teamId.getD 0) then 1 else 0) := by
  have hns := assign_ok_notifications st rid caller cid r c ns h
  subst hns
  unfold assignNotifications
  refine ⟨?_, ?_, ?_⟩
  · intro n hn
    by_cases hu : idTruthy c.userId = true
    · rw [if_pos hu] at hn
      simp only [List.mem_singleton] at hn
      subst hn
      rfl
    · rw [if_neg hu] at hn
      by_cases ht : idTruthy c.teamId = true
      · rw [if_pos ht] at hn
        simp only [List.mem_map] at hn
        obtain ⟨v, hv, rfl⟩ := hn
        rfl
      · rw [if_neg ht] at hn
        simp at hn
  · intro hu
    rw [if_pos hu]
  · intro hu ht
    rw [if_neg (by simp [hu]), if_pos ht]
    intro u
    exact count_notif_map _ (nodup_addTeamOwner _ _ _ (nodup_addTeamMembers _ _ _ (by simp)))
      "rescue_assigned" u

/-- Witness for the amended C5 at demoStore (team candidate 3 wins). -/
theorem assign_notifies_only_winner_witness :
    ((assignCandidate demoStore 1 1 3).2 =
      Except.ok ({ id := 1, userId := 1, status := "accepted", assignedTeamId := some 5 },
                 { id := 3, rescueId := 1, teamId := some 5 },
                 [{ userId := 7, kind := "rescue_assigned" },
                  { userId := 6, kind := "rescue_assigned" }])) ∧
    ((∀ n ∈ [({ userId := 7, kind := "rescue_assigned" } : NotifRow),
             { userId := 6, kind := "rescue_assigned" }], n.kind = "rescue_assigned") ∧
     (idTruthy ({ id := 3, rescueId := 1, teamId := some 5 } : RescueCandidate).userId = true →
       [({ userId := 7, kind := "rescue_assigned" } : NotifRow),
        { userId := 6, kind := "rescue_assigned" }] =
       [{ userId := ({ id := 3, rescueId := 1, teamId := some 5 } :
            RescueCandidate).userId.getD 0, kind := "rescue_assigned" }]) ∧
     (idTruthy ({ id := 3, rescueId := 1, teamId := some 5 } : RescueCandidate).userId = false →
      idTruthy ({ id := 3, rescueId := 1, teamId := some 5 } : RescueCandidate).teamId = true →
      ∀ u, [({ userId := 7, kind := "rescue_assigned" } : NotifRow),
            { userId := 6, kind := "rescue_assigned" }].count
              { userId := u, kind := "rescue_assigned" } =
        if u ∈ assignRecipients demoStore
            (({ id := 3, rescueId := 1, teamId := some 5 } :
               RescueCandidate).teamId.getD 0) then 1 else 0)) :=
  ⟨rfl,
   assign_notifies_only_winner demoStore 1 1 3
     { id := 1, userId := 1, status := "accepted", assignedTeamId := some 5 }
     { id := 3, rescueId := 1, teamId := some 5 }
     [{ userId := 7, kind := "rescue_assigned" },
      { userId := 6, kind := "rescue_assigned" }] rfl⟩


/-- C7: proposeCandidate is idempotent on duplicates: whenever a proposal call
succeeds with candidate c and final store st1, repeating the identical proposal
against st1 succeeds again with the very same candidate record, leaves the
store unchanged and creates no further notification. -/
theorem propose_idempotent (st : Store) (rid caller : Nat) (teamId : Option Nat)
    (st1 : Store) (c : RescueCandidate) (ns : List NotifRow)
    (h : proposeCandidate st rid caller teamId = (st1, Except.ok (c, ns))) :
    proposeCandidate st1 rid caller teamId = (st1, Except.ok (c, [])) := by
  unfold proposeCandidate at h ⊢
  rcases hr : st.rescues.find? (fun r => r.id == rid) with _ | rescue <;> simp only [hr] at h
  · simp at h
  · by_cases h1 : (rescue.status == "resolved" || idTruthy rescue.assignedRescuerId ||
        idTruthy rescue.assignedTeamId) = true
    · rw [if_pos h1] at h
      simp at h
    · rw [if_neg h1] at h
      by_cases h2 : (idTruthy teamId && !(isTeamMember st (teamId.getD 0) caller).1) = true
      · rw [if_pos h2] at h
        simp at h
      · rw [if_neg h2] at h
        by_cases h3 : (idTruthy teamId && !(isTeamMember st (teamId.getD 0) caller).2) = true
        · rw [if_pos h3] at h
          simp at h
        · rw [if_neg h3] at h
          rcases hc : st.candidates.find? (fun cnd =>
              if idTruthy teamId then cnd.rescueId == rid && cnd.teamId == teamId
              else cnd.rescueId == rid && cnd.userId == some caller) with _ | existing <;>
            simp only [hc] at h
          · -- creation path
            simp only [Prod.mk.injEq, Except.ok.injEq] at h
            obtain ⟨hst, hcand, -⟩ := h
            have hrs : st1.rescues = st.rescues := by rw [← hst]
            have hts : st1.teams = st.teams := by rw [← hst]
            have htm : st1.teamMembers = st.teamMembers := by rw [← hst]
            have hcs : st1.candidates = st.candidates ++
                [{ id := st.nextCandidateId, rescueId := rid,
                   userId := if idTruthy teamId then none else some caller,
                   teamId := if idTruthy teamId then teamId else none,
                   status := "pending" }] := by rw [← hst]
            have hmem : ∀ t u, isTeamMember st1 t u = isTeamMember st t u := by
              intro t u
              unfold isTeamMember
              rw [hts, htm]
            simp only [hrs, hr, hmem]
            rw [if_neg h1, if_neg h2, if_neg h3]
            have hself : (fun cnd =>
                if idTruthy teamId then cnd.rescueId == rid && cnd.teamId == teamId
                else cnd.rescueId == rid && cnd.userId == some caller)
                ({ id := st.nextCandidateId, rescueId := rid,
                   userId := if idTruthy teamId then none else some caller,
                   teamId := if idTruthy teamId then teamId else none,
                   status := "pending" } : RescueCandidate) = true := by
              by_cases ht : idTruthy teamId = true <;> simp [ht]
            simp only [hcs, List.find?_append, hc, Option.none_orElse, List.find?_cons, hself,
              Option.none_or]
            rw [hcand]
          · -- duplicate path
            simp only [Prod.mk.injEq, Except.ok.injEq] at h
            obtain ⟨rfl, rfl, rfl⟩ := h
            simp only [hr]
            rw [if_neg h1, if_neg h2, if_neg h3]
            simp only [hc]

/-- The store after user 8 proposes a personal candidacy on rescue 1 of demoStore. -/
def proposedStore : Store :=
  { rescues := [{ id := 1, userId := 1 }],
    candidates := [{ id := 2, rescueId := 1, userId := some 2 },
                   { id := 3, rescueId := 1, teamId := some 5 },
                   { id := 4, rescueId := 1, userId := some 4 },
                   { id := 5, rescueId := 1, userId := some 8 }],
    teams := [{ id := 5, ownerId := 6 }],
    teamMembers := [{ teamId := 5, userId := 7 }],
    nextCandidateId := 6 }

/-- Witness for C7: user 8 proposes twice; the second call returns the same
candidate row (id 5) without changing the store. -/
theorem propose_idempotent_witness :
    proposeCandidate demoStore 1 8 none =
      (proposedStore, Except.ok ({ id := 5, rescueId := 1, userId := some 8 },
        [{ userId := 1, kind := "rescue_candidate" }])) ∧
    proposeCandidate proposedStore 1 8 none =
      (proposedStore, Except.ok ({ id := 5, rescueId := 1, userId := some 8 }, [])) :=
  ⟨rfl, propose_idempotent demoStore 1 8 none proposedStore
    { id := 5, rescueId := 1, userId := some 8 }
    [{ userId := 1, kind := "rescue_candidate" }] rfl⟩


lemma nodup_ite_setInsert (c : Prop) [Decidable c] (x : Nat) (s : List Nat)
    (h : s.Nodup) : (if c then setInsert x s else s).Nodup := by
  split
  · exact nodup_setInsert _ _ h
  · exact h

lemma nodup_messageRecipients (st : Store) (rescue : Rescue) (author : Nat) :
    (messageRecipients st rescue author).Nodup := by
  unfold messageRecipients
  apply List.Nodup.filter
  split
  · exact nodup_addTeamOwner _ _ _ (nodup_addTeamMembers _ _ _
      (nodup_ite_setInsert _ _ _ (nodup_ite_setInsert _ _ _ List.nodup_nil)))
  · exact nodup_ite_setInsert _ _ _ (nodup_ite_setInsert _ _ _ List.nodup_nil)

lemma mem_messageRecipients (st : Store) (rescue : Rescue) (author u : Nat) :
    u ∈ messageRecipients st rescue author ↔
      u ≠ author ∧
      ((rescue.userId ≠ 0 ∧ u = rescue.userId) ∨
       (idTruthy rescue.assignedRescuerId = true ∧ u = rescue.assignedRescuerId.getD 0) ∨
       (idTruthy rescue.assignedTeamId = true ∧
         ((∃ m ∈ st.teamMembers, m.teamId = rescue.assignedTeamId.getD 0 ∧ m.userId = u) ∨
          (∃ tm, st.teams.find? (fun x => x.id == rescue.assignedTeamId.getD 0) = some tm ∧
             tm.ownerId = u ∧ tm.ownerId ≠ 0)))) := by
  unfold messageRecipients
  simp only [List.mem_filter, bne_iff_ne, ne_eq]
  rw [and_comm]
  apply and_congr_right
  intro _
  by_cases ht : idTruthy rescue.assignedTeamId = true <;>
    by_cases hrr : idTruthy rescue.assignedRescuerId = true <;>
    by_cases h0 : rescue.userId = 0 <;>
    simp [ht, hrr, h0, mem_addTeamOwner, mem_addTeamMembers, mem_setInsert] <;>
    itauto


/-- C9: the notifications of a successfully posted chat message go exactly to
the rescue owner, the assigned responder and the assigned-team members plus
team owner, minus the message author: the author is never notified, and every
recipient in that set receives exactly one rescue_message row. -/
theorem message_notification_recipients (st : Store) (rid author : Nat)
    (content : String) (st1 : Store) (msg : MessageRow) (ns : List NotifRow)
    (rescue : Rescue)
    (h : postMessage st rid author content = (st1, Except.ok (msg, ns)))
    (hr : st.rescues.find? (fun r => r.id == rid) = some rescue) :
    (∀ n ∈ ns, n.userId ≠ author ∧ n.kind = "rescue_message") ∧
    (∀ u, ns.count { userId := u, kind := "rescue_message" } =
      if u ∈ messageRecipients st rescue author then 1 else 0) ∧
    (∀ u, u ∈ messageRecipients st rescue author ↔
      u ≠ author ∧
      ((rescue.userId ≠ 0 ∧ u = rescue.userId) ∨
       (idTruthy rescue.assignedRescuerId = true ∧ u = rescue.assignedRescuerId.getD 0) ∨
       (idTruthy rescue.assignedTeamId = true ∧
         ((∃ m ∈ st.teamMembers, m.teamId = rescue.assignedTeamId.getD 0 ∧ m.userId = u) ∨
          (∃ tm, st.teams.find? (fun x => x.id == rescue.assignedTeamId.getD 0) = some tm ∧
             tm.ownerId = u ∧ tm.ownerId ≠ 0))))) := by
  have hns : ns = (messageRecipients st rescue author).map
      (fun u => { userId := u, kind := "rescue_message" }) := by
    unfold postMessage canChatOrShare at h
    simp only [hr] at h
    by_cases h1 : (rescue.userId == author) = true
    · rw [if_pos h1] at h
      simp only [Prod.mk.injEq, Except.ok.injEq] at h
      exact h.2.2.symm
    · rw [if_neg h1] at h
      by_cases h2 : (rescue.assignedRescuerId == some author) = true
      · rw [if_pos h2] at h
        simp only [Prod.mk.injEq, Except.ok.injEq] at h
        exact h.2.2.symm
      · rw [if_neg h2] at h
        by_cases h3 : idTruthy rescue.assignedTeamId = true
        · rw [if_pos h3] at h
          by_cases h4 : ((isTeamMember st (rescue.assignedTeamId.getD 0) author).1 &&
              (isTeamMember st (rescue.assignedTeamId.getD 0) author).2) = true
          · rw [h4] at h
            simp only [Prod.mk.injEq, Except.ok.injEq] at h
            exact h.2.2.symm
          · rw [Bool.not_eq_true] at h4
            rw [h4] at h
            simp at h
        · rw [if_neg h3] at h
          simp at h
  subst hns
  refine ⟨?_, ?_, fun u => mem_messageRecipients st rescue author u⟩
  · intro n hn
    simp only [List.mem_map] at hn
    obtain ⟨u, hu, rfl⟩ := hn
    refine ⟨?_, rfl⟩
    unfold messageRecipients at hu
    have := (List.mem_filter.mp hu).2
    simpa using this
  · intro u
    exact count_notif_map _ (nodup_messageRecipients st rescue author) _ u


/-- Witness for C9: the assigned responder (user 2) posts a message on rescue 1
of assignedStore; only the owner (user 1) is notified, once. -/
theorem message_notification_recipients_witness :
    (postMessage assignedStore 1 2 "hola" =
       ({ assignedStore with
           messages := [{ id := 1, rescueId := 1, authorId := 2, content := "hola" }]
           nextMessageId := 2 },
        Except.ok ({ id := 1, rescueId := 1, authorId := 2, content := "hola" },
                   [{ userId := 1, kind := "rescue_message" }])) ∧
     assignedStore.rescues.find? (fun r => r.id == 1) = some assignedRescue) ∧
    ((∀ n ∈ [({ userId := 1, kind := "rescue_message" } : NotifRow)],
        n.userId ≠ 2 ∧ n.kind = "rescue_message") ∧
     (∀ u, [({ userId := 1, kind := "rescue_message" } : NotifRow)].count
          { userId := u, kind := "rescue_message" } =
        if u ∈ messageRecipients assignedStore assignedRescue 2 then 1 else 0) ∧
     (∀ u, u ∈ messageRecipients assignedStore assignedRescue 2 ↔
       u ≠ 2 ∧
       ((assignedRescue.userId ≠ 0 ∧ u = assignedRescue.userId) ∨
        (idTruthy assignedRescue.assignedRescuerId = true ∧
          u = assignedRescue.assignedRescuerId.getD 0) ∨
        (idTruthy assignedRescue.assignedTeamId = true ∧
          ((∃ m ∈ assignedStore.teamMembers,
              m.teamId = assignedRescue.assignedTeamId.getD 0 ∧ m.userId = u) ∨
           (∃ tm, assignedStore.teams.find?
                (fun x => x.id == assignedRescue.assignedTeamId.getD 0) = some tm ∧
              tm.ownerId = u ∧ tm.ownerId ≠ 0)))))) :=
  ⟨⟨rfl, by decide⟩,
   message_notification_recipients assignedStore 1 2 "hola"
     { assignedStore with
        messages := [{ id := 1, rescueId := 1, authorId := 2, content := "hola" }]
        nextMessageId := 2 }
     { id := 1, rescueId := 1, authorId := 2, content := "hola" }
     [{ userId := 1, kind := "rescue_message" }]
     assignedRescue rfl (by decide)⟩


lemma filter_match_length (ns : List StoredNotification) (nid uid : Nat)
    (hids : (ns.map (fun n => n.id)).Nodup)
    (n : StoredNotification) (hn : n ∈ ns) (hid : n.id = nid) (huid : n.userId = uid) :
    (ns.filter (fun m => m.id == nid && m.userId == uid)).length = 1 := by
  induction ns with
  | nil => simp at hn
  | cons a t ih =>
    simp only [List.map_cons, List.nodup_cons] at hids
    obtain ⟨ha, ht⟩ := hids
    rcases List.mem_cons.mp hn with rfl | hnt
    · have hft : t.filter (fun m => m.id == nid && m.userId == uid) = [] := by
        rw [List.filter_eq_nil_iff]
        intro m hm
        simp only [Bool.and_eq_true, beq_iff_eq, not_and]
        intro hmid _
        exact ha (List.mem_map.mpr ⟨m, hm, by rw [hmid, ← hid]⟩)
      simp [List.filter_cons, hft, hid, huid]
    · have hpa : (a.id == nid && a.userId == uid) = false := by
        by_contra hcon
        rw [Bool.not_eq_false, Bool.and_eq_true, beq_iff_eq, beq_iff_eq] at hcon
        exact ha (List.mem_map.mpr ⟨n, hnt, by rw [hid, ← hcon.1]⟩)
      simp only [List.filter_cons, hpa, Bool.false_eq_true, if_false]
      exact ih ht hnt

/-- C10: markRead mutates only a notification owned by the caller: when no
notification carries the requested id with the caller as recipient, the table
is unchanged and the reported count is 0 (no NotFound/Forbidden — the route
always answers a count); when the caller owns it, the count is 1, that row is
now read, and every non-matching row is untouched. -/
theorem markRead_only_own_notifications (ns : List StoredNotification) (nid uid : Nat)
    (hids : (ns.map (fun n => n.id)).Nodup) :
    ((∀ n ∈ ns, ¬(n.id = nid ∧ n.userId = uid)) → markRead ns nid uid = (ns, 0)) ∧
    (∀ n ∈ ns, n.id = nid → n.userId = uid →
      (markRead ns nid uid).2 = 1 ∧
      { n with read := true } ∈ (markRead ns nid uid).1 ∧
      ∀ m ∈ ns, ¬(m.id = nid ∧ m.userId = uid) → m ∈ (markRead ns nid uid).1) := by
  constructor
  · intro hno
    have hmap : ∀ l : List StoredNotification, (∀ n ∈ l, ¬(n.id = nid ∧ n.userId = uid)) →
        l.map (fun n => if n.id == nid && n.userId == uid then
          { n with read := true } else n) = l := by
      intro l
      induction l with
      | nil => intro _; rfl
      | cons a t iht =>
        intro hl
        have hpa : (a.id == nid && a.userId == uid) = false := by
          rw [Bool.eq_false_iff]
          intro hcon
          rw [Bool.and_eq_true, beq_iff_eq, beq_iff_eq] at hcon
          exact hl a (List.mem_cons_self a t) hcon
        simp only [List.map_cons]
        rw [if_neg (by simp [hpa])]
        rw [iht (fun n hn => hl n (List.mem_cons_of_mem a hn))]
    have hfil : ns.filter (fun m => m.id == nid && m.userId == uid) = [] := by
      rw [List.filter_eq_nil_iff]
      intro m hm
      simp only [Bool.and_eq_true, beq_iff_eq, not_and]
      intro h1 h2
      exact hno m hm ⟨h1, h2⟩
    unfold markRead
    rw [hmap ns hno, hfil]
    rfl
  · intro n hn hid huid
    refine ⟨filter_match_length ns nid uid hids n hn hid huid, ?_, ?_⟩
    · unfold markRead
      apply List.mem_map.mpr
      refine ⟨n, hn, ?_⟩
      simp [hid, huid]
    · intro m hm hnm
      unfold markRead
      apply List.mem_map.mpr
      refine ⟨m, hm, ?_⟩
      have : (m.id == nid && m.userId == uid) = false := by
        rw [Bool.eq_false_iff]
        intro hcon
        rw [Bool.and_eq_true, beq_iff_eq, beq_iff_eq] at hcon
        exact hnm hcon
      simp [this]


/-- Three stored notifications: ids 1 and 2 belong to user 9, id 3 to user 4. -/
def notifTable : List StoredNotification :=
  [{ id := 1, userId := 9 }, { id := 2, userId := 9, read := true }, { id := 3, userId := 4 }]

/-- Witness for C10 at a concrete three-row table with unique ids. -/
theorem markRead_only_own_notifications_witness :
    ((notifTable.map (fun n => n.id)).Nodup) ∧
    (((∀ n ∈ notifTable, ¬(n.id = 1 ∧ n.userId = 9)) → markRead notifTable 1 9 = (notifTable, 0)) ∧
     (∀ n ∈ notifTable, n.id = 1 → n.userId = 9 →
       (markRead notifTable 1 9).2 = 1 ∧
       { n with read := true } ∈ (markRead notifTable 1 9).1 ∧
       ∀ m ∈ notifTable, ¬(m.id = 1 ∧ m.userId = 9) → m ∈ (markRead notifTable 1 9).1)) :=
  ⟨by decide, markRead_only_own_notifications notifTable 1 9 (by decide)⟩

end TrailGuard
